import Mathlib

/-!
# Verification of the FeatureManagement-Go evaluation engine

Shallow embedding of the core evaluation engine of microsoft/FeatureManagement-Go
(package `featuremanagement`): the percentile hasher, the audience matcher, the
targeting filter, the time-window filter, the condition evaluator and the
variant allocator / evaluation orchestrator, together with theorems checking the
natural-language specification against this embedding.

Modelling conventions:
* Go `uint32` values are `Nat` with an explicit `% 2 ^ 32`.
* Go `float64` percentile arithmetic is modelled exactly over `ℚ`
  (the rational value of the computed expression).
* Go `(T, error)` returns are `Except String T`; a `nil`-pointer dereference
  (runtime panic) is modelled by a dedicated outcome constructor.
* Go dynamic `any` values that the engine inspects by type assertion are
  modelled by an explicit inductive of the shapes the engine distinguishes.
-/

namespace FMGo

/-! ## 32-bit arithmetic primitives -/

/-- `2 ^ 32`, the modulus of Go `uint32` arithmetic. -/
def mask32 : Nat := 2 ^ 32

/-- `math.MaxUint32` from the Go standard library, i.e. `2 ^ 32 - 1`. -/
def maxUint32 : Nat := 2 ^ 32 - 1

/-- Addition of `uint32` values. -/
def add32 (a b : Nat) : Nat := (a + b) % mask32

/-- Rotate the 32-bit word `x` right by `n` places. -/
def rotr32 (n x : Nat) : Nat := ((x >>> n) ||| (x <<< (32 - n))) % mask32

/-- Bitwise complement of a 32-bit word. -/
def not32 (x : Nat) : Nat := x ^^^ (mask32 - 1)

/-! ## SHA-256 (crypto/sha256)

`hashStringToUint32` in `targeting.go` calls `sha256.Sum256` from the Go
standard library.  SHA-256 (FIPS 180-4) is embedded here over byte lists
(`List Nat`, each entry `< 256`). -/

/-- SHA-256 choice function. -/
def shaCh (x y z : Nat) : Nat := (x &&& y) ^^^ (not32 x &&& z)

/-- SHA-256 majority function. -/
def shaMaj (x y z : Nat) : Nat := (x &&& y) ^^^ (x &&& z) ^^^ (y &&& z)

/-- SHA-256 big sigma 0. -/
def shaS0 (x : Nat) : Nat := rotr32 2 x ^^^ rotr32 13 x ^^^ rotr32 22 x

/-- SHA-256 big sigma 1. -/
def shaS1 (x : Nat) : Nat := rotr32 6 x ^^^ rotr32 11 x ^^^ rotr32 25 x

/-- SHA-256 small sigma 0. -/
def shaG0 (x : Nat) : Nat := rotr32 7 x ^^^ rotr32 18 x ^^^ (x >>> 3)

/-- SHA-256 small sigma 1. -/
def shaG1 (x : Nat) : Nat := rotr32 17 x ^^^ rotr32 19 x ^^^ (x >>> 10)

/-- The 64 SHA-256 round constants of FIPS 180-4 section 4.2.2, written in
decimal. -/
def shaK : List Nat :=
  [1116352408, 1899447441, 3049323471, 3921009573, 961987163, 1508970993,
   2453635748, 2870763221, 3624381080, 310598401, 607225278, 1426881987,
   1925078388, 2162078206, 2614888103, 3248222580, 3835390401, 4022224774,
   264347078, 604807628, 770255983, 1249150122, 1555081692, 1996064986,
   2554220882, 2821834349, 2952996808, 3210313671, 3336571891, 3584528711,
   113926993, 338241895, 666307205, 773529912, 1294757372, 1396182291,
   1695183700, 1986661051, 2177026350, 2456956037, 2730485921, 2820302411,
   3259730800, 3345764771, 3516065817, 3600352804, 4094571909, 275423344,
   430227734, 506948616, 659060556, 883997877, 958139571, 1322822218,
   1537002063, 1747873779, 1955562222, 2024104815, 2227730452, 2361852424,
   2428436474, 2756734187, 3204031479, 3329325298]

/-- The eight initial SHA-256 state words of FIPS 180-4 section 5.3.3,
written in decimal. -/
def shaH0 : List Nat :=
  [1779033703, 3144134277, 1013904242, 2773480762,
   1359893119, 2600822924, 528734635, 1541459225]

/-- SHA-256 padding: append `0x80`, zeros up to 56 mod 64, then the 64-bit
big-endian bit length. -/
def sha256Pad (msg : List Nat) : List Nat :=
  let len := msg.length
  let padZeros := (55 + 64 - len % 64) % 64
  let bitLen := len * 8
  msg ++ [0x80] ++ List.replicate padZeros 0 ++
    [(bitLen >>> 56) % 256, (bitLen >>> 48) % 256, (bitLen >>> 40) % 256, (bitLen >>> 32) % 256,
     (bitLen >>> 24) % 256, (bitLen >>> 16) % 256, (bitLen >>> 8) % 256, bitLen % 256]

/-- Group bytes into big-endian 32-bit words. -/
def bytesToWords : List Nat → List Nat
  | b0 :: b1 :: b2 :: b3 :: rest =>
      (((b0 <<< 24) + (b1 <<< 16) + (b2 <<< 8) + b3) % mask32) :: bytesToWords rest
  | _ => []

/-- Extend the 16 words of a chunk to the 64-entry message schedule. -/
def shaExtend (w : List Nat) : List Nat :=
  (List.range 48).foldl
    (fun acc i =>
      acc ++ [add32 (add32 (shaG1 (acc.getD (i + 14) 0)) (acc.getD (i + 9) 0))
                    (add32 (shaG0 (acc.getD (i + 1) 0)) (acc.getD i 0))])
    w

/-- One round of the SHA-256 compression function on the 8-word state. -/
def shaCompressStep (st : List Nat) (kw : Nat × Nat) : List Nat :=
  match st with
  | [a, b, c, d, e, f, g, h] =>
    let t1 := add32 (add32 (add32 (add32 h (shaS1 e)) (shaCh e f g)) kw.1) kw.2
    let t2 := add32 (shaS0 a) (shaMaj a b c)
    [add32 t1 t2, a, b, c, add32 d t1, e, f, g]
  | other => other

/-- Compress one 16-word chunk into the hash state. -/
def sha256Compress (hs : List Nat) (chunk : List Nat) : List Nat :=
  let w := shaExtend chunk
  let st := (shaK.zip w).foldl shaCompressStep hs
  (hs.zip st).map (fun p => add32 p.1 p.2)

/-- Fold the compression function over all 16-word chunks of the padded message. -/
def sha256Chunks (hs : List Nat) : List Nat → List Nat
  | w0 :: w1 :: w2 :: w3 :: w4 :: w5 :: w6 :: w7 ::
    w8 :: w9 :: w10 :: w11 :: w12 :: w13 :: w14 :: w15 :: rest =>
      sha256Chunks
        (sha256Compress hs [w0, w1, w2, w3, w4, w5, w6, w7, w8, w9, w10, w11, w12, w13, w14, w15])
        rest
  | _ => hs

/-- Serialize one 32-bit word to 4 big-endian bytes. -/
def word2bytesBE (w : Nat) : List Nat := [(w >>> 24) % 256, (w >>> 16) % 256, (w >>> 8) % 256, w % 256]

/-- The SHA-256 digest (32 bytes) of a byte string. -/
def sha256 (msg : List Nat) : List Nat :=
  ((sha256Chunks shaH0 (bytesToWords (sha256Pad msg))).map word2bytesBE).flatten

/-- UTF-8 encoding of one character (RFC 3629); Go strings are UTF-8 byte
sequences, and `[]byte(s)` yields exactly these bytes. -/
def utf8EncodeChar (c : Char) : List Nat :=
  let n := c.toNat
  if n < 0x80 then [n]
  else if n < 0x800 then [0xC0 ||| (n >>> 6), 0x80 ||| (n &&& 0x3F)]
  else if n < 0x10000 then
    [0xE0 ||| (n >>> 12), 0x80 ||| ((n >>> 6) &&& 0x3F), 0x80 ||| (n &&& 0x3F)]
  else
    [0xF0 ||| (n >>> 18), 0x80 ||| ((n >>> 12) &&& 0x3F), 0x80 ||| ((n >>> 6) &&& 0x3F),
     0x80 ||| (n &&& 0x3F)]

/-- The UTF-8 bytes of a string (Go `[]byte(s)`). -/
def strBytes (s : String) : List Nat := (s.data.map utf8EncodeChar).flatten

/-! ## targeting.go : the percentile hasher -/

/-- `hashStringToUint32` (targeting.go lines 200-205): SHA-256 the UTF-8 bytes,
read the first 4 digest bytes as a little-endian unsigned 32-bit integer. -/
def hashStringToUint32 (s : String) : Nat :=
  let d := sha256 (strBytes s)
  (d.getD 0 0 + (d.getD 1 0 <<< 8) + (d.getD 2 0 <<< 16) + (d.getD 3 0 <<< 24)) % mask32

/-- `constructAudienceContextID` (targeting.go lines 196-198). -/
def constructAudienceContextID (userID : String) (hint : String) : String :=
  userID ++ "\n" ++ hint

/-- The percentile bucket computed at targeting.go line 151:
`(float64(contextMarker) / float64(math.MaxUint32)) * 100`, modelled exactly
over `ℚ`. -/
def contextPercentage (audienceContextID : String) : ℚ :=
  ((hashStringToUint32 audienceContextID : ℚ) / (maxUint32 : ℚ)) * 100

/-! ## Data model (schema.go)

Go `interface{}` configuration payloads are modelled by a small structured
value type; the engine never inspects them. -/

/-- An opaque structured value (Go `any` inside flag documents). -/
inductive GoValue where
  | null
  | boolean (b : Bool)
  | num (q : ℚ)
  | str (s : String)
  | arr (xs : List GoValue)
  | obj (fields : List (String × GoValue))

/-- `TargetingContext` (targeting_context.go). -/
structure TargetingContext where
  UserID : String
  Groups : List String

/-- `ClientFilter` (schema.go); `Parameters` is the opaque filter parameter map. -/
structure ClientFilter where
  Name : String
  Parameters : List (String × GoValue)

/-- `Conditions` (schema.go); `RequirementType` is a Go string enum. -/
structure Conditions where
  RequirementType : String
  ClientFilters : List ClientFilter

/-- `VariantDefinition` (schema.go); `StatusOverride` is a Go string enum. -/
structure VariantDefinition where
  Name : String
  ConfigurationValue : GoValue
  StatusOverride : String

/-- `Variant` (variant.go): the shape surfaced in evaluation results. -/
structure Variant where
  Name : String
  ConfigurationValue : GoValue

/-- `UserAllocation` (schema.go). -/
structure UserAllocation where
  Variant : String
  Users : List String

/-- `GroupAllocation` (schema.go). -/
structure GroupAllocation where
  Variant : String
  Groups : List String

/-- `PercentileAllocation` (schema.go); `From`/`To` are Go `float64`,
modelled as `ℚ`. -/
structure PercentileAllocation where
  Variant : String
  From : ℚ
  To : ℚ

/-- `VariantAllocation` (schema.go). -/
structure VariantAllocation where
  DefaultWhenDisabled : String
  DefaultWhenEnabled : String
  User : List UserAllocation
  Group : List GroupAllocation
  Percentile : List PercentileAllocation
  Seed : String

/-- `Telemetry` (schema.go). -/
structure Telemetry where
  Enabled : Bool
  Metadata : List (String × String)

/-- `FeatureFlag` (schema.go). -/
structure FeatureFlag where
  ID : String
  Description : String
  DisplayName : String
  Enabled : Bool
  Conditions : Option Conditions
  Variants : List VariantDefinition
  Allocation : Option VariantAllocation
  Telemetry : Option Telemetry

/-- `RequirementTypeAny` (schema.go). -/
def RequirementTypeAny : String := "Any"

/-- `RequirementTypeAll` (schema.go). -/
def RequirementTypeAll : String := "All"

/-- `StatusOverrideNone` (schema.go). -/
def StatusOverrideNone : String := "None"

/-- `StatusOverrideEnabled` (schema.go). -/
def StatusOverrideEnabled : String := "Enabled"

/-- `StatusOverrideDisabled` (schema.go). -/
def StatusOverrideDisabled : String := "Disabled"

/-- `VariantAssignmentReasonNone` (schema.go). -/
def VariantAssignmentReasonNone : String := "None"

/-- `VariantAssignmentReasonDefaultWhenDisabled` (schema.go). -/
def VariantAssignmentReasonDefaultWhenDisabled : String := "DefaultWhenDisabled"

/-- `VariantAssignmentReasonDefaultWhenEnabled` (schema.go). -/
def VariantAssignmentReasonDefaultWhenEnabled : String := "DefaultWhenEnabled"

/-- `VariantAssignmentReasonUser` (schema.go). -/
def VariantAssignmentReasonUser : String := "User"

/-- `VariantAssignmentReasonGroup` (schema.go). -/
def VariantAssignmentReasonGroup : String := "Group"

/-- `VariantAssignmentReasonPercentile` (schema.go). -/
def VariantAssignmentReasonPercentile : String := "Percentile"

/-- The dynamic shapes of the Go `any` app context that the engine
distinguishes by type assertion: `nil`, a `TargetingContext` value, a
`*TargetingContext` pointer, or any other dynamic type. -/
inductive GoAny where
  | null
  | targetingCtx (tc : TargetingContext)
  | targetingCtxPtr (tc : TargetingContext)
  | other (tag : String)

/-- `FeatureFilterEvaluationContext` (feature_filter.go). -/
structure FeatureFilterEvaluationContext where
  FeatureName : String
  Parameters : List (String × GoValue)

/-- The `FeatureFilter.Evaluate` contract: `(bool, error)` becomes
`Except String Bool`. -/
def FilterFn : Type := FeatureFilterEvaluationContext → GoAny → Except String Bool

/-- `FeatureManager` (feature_manager.go): the filter registry map,
modelled as a lookup function (Go `map[string]FeatureFilter`). -/
structure FeatureManager where
  featureFilters : String → Option FilterFn

/-! ## targeting.go : audience matching -/

/-- `isTargetedUser` (targeting.go lines 180-193). -/
def isTargetedUser (userID : String) (users : List String) : Bool :=
  if userID == "" then false
  else users.any (fun u => userID == u)

/-- `isTargetedGroup` (targeting.go lines 162-177). -/
def isTargetedGroup (sourceGroups : List String) (targetedGroups : List String) : Bool :=
  if sourceGroups.isEmpty then false
  else sourceGroups.any (fun sg => targetedGroups.any (fun tg => sg == tg))

/-- `isTargetedPercentile` (targeting.go lines 130-159): validate the range,
hash the audience context id, and test the bucket against `[f, t)`, with
`t = 100` inclusive at the top. -/
def isTargetedPercentile (userID : String) (hint : String) (f : ℚ) (t : ℚ) :
    Except String Bool :=
  if f < 0 ∨ f > 100 then .error "the from value must be between 0 and 100"
  else if t < 0 ∨ t > 100 then .error "the to value must be between 0 and 100"
  else if f > t then .error "the from value cannot be larger than the to value"
  else
    let pct := contextPercentage (constructAudienceContextID userID hint)
    if t = 100 then .ok (decide (pct ≥ f))
    else .ok (decide (pct ≥ f ∧ pct < t))

/-! ## targeting.go : the targeting filter -/

/-- `TargetingGroup` (targeting.go). -/
structure TargetingGroup where
  Name : String
  RolloutPercentage : ℚ

/-- `TargetingExclusion` (targeting.go). -/
structure TargetingExclusion where
  Users : List String
  Groups : List String

/-- `TargetingAudience` (targeting.go). -/
structure TargetingAudience where
  DefaultRolloutPercentage : ℚ
  Users : List String
  Groups : List TargetingGroup
  Exclusion : Option TargetingExclusion

/-- `TargetingFilterParameters` (targeting.go). -/
structure TargetingFilterParameters where
  Audience : TargetingAudience

/-- The validation half of `getTargetingParams` (targeting.go lines 105-127);
the `mapstructure.Decode` step is external stdlib decoding, so the parameters
arrive already structured. -/
def getTargetingParams (featureName : String) (params : TargetingFilterParameters) :
    Except String TargetingFilterParameters :=
  if params.Audience.DefaultRolloutPercentage < 0 ∨ params.Audience.DefaultRolloutPercentage > 100 then
    .error ("invalid feature flag: " ++ featureName ++
      ". Audience.DefaultRolloutPercentage must be a number between 0 and 100")
  else if params.Audience.Groups.any
      (fun g => decide (g.RolloutPercentage < 0) || decide (g.RolloutPercentage > 100)) then
    .error ("invalid feature flag: " ++ featureName ++
      ". RolloutPercentage of group must be a number between 0 and 100")
  else .ok params

/-- The group-targeting loop of `TargetingFilter.Evaluate`
(targeting.go lines 85-97): first group the context belongs to that also
passes its rollout percentile accepts; a failed percentile check moves on to
the next group. -/
def targetingGroupsLoop (featureName : String) (tc : TargetingContext) :
    List TargetingGroup → Except String Bool
  | [] => .ok false
  | g :: rest =>
    if isTargetedGroup tc.Groups [g.Name] then
      match isTargetedPercentile tc.UserID (featureName ++ "\n" ++ g.Name) 0 g.RolloutPercentage with
      | .error e => .error e
      | .ok true => .ok true
      | .ok false => targetingGroupsLoop featureName tc rest
    else targetingGroupsLoop featureName tc rest

/-- The body of `TargetingFilter.Evaluate` after the context type assertion
(targeting.go lines 59-102): exclusions, direct user targeting, group
targeting, then the default rollout percentage. -/
def targetingEvaluateBody (featureName : String) (params : TargetingFilterParameters)
    (tc : TargetingContext) : Except String Bool :=
  let excludedUser :=
    match params.Audience.Exclusion with
    | some excl => tc.UserID != "" && !excl.Users.isEmpty && isTargetedUser tc.UserID excl.Users
    | none => false
  let excludedGroup :=
    match params.Audience.Exclusion with
    | some excl => !tc.Groups.isEmpty && !excl.Groups.isEmpty && isTargetedGroup tc.Groups excl.Groups
    | none => false
  if excludedUser then .ok false
  else if excludedGroup then .ok false
  else if tc.UserID != "" && !params.Audience.Users.isEmpty &&
      isTargetedUser tc.UserID params.Audience.Users then .ok true
  else
    let groupsStep : Except String Bool :=
      if !tc.Groups.isEmpty && !params.Audience.Groups.isEmpty then
        targetingGroupsLoop featureName tc params.Audience.Groups
      else .ok false
    match groupsStep with
    | .error e => .error e
    | .ok true => .ok true
    | .ok false => isTargetedPercentile tc.UserID featureName 0 params.Audience.DefaultRolloutPercentage

/-- `TargetingFilter.Evaluate` (targeting.go lines 46-103): validate
parameters, then require the app context to be a `TargetingContext` value
(any other dynamic type, including `*TargetingContext`, fails the type
assertion and errors). -/
def TargetingFilter.Evaluate (featureName : String) (rawParams : TargetingFilterParameters)
    (appCtx : GoAny) : Except String Bool :=
  match getTargetingParams featureName rawParams with
  | .error e => .error e
  | .ok params =>
    match appCtx with
    | .targetingCtx tc => targetingEvaluateBody featureName params tc
    | _ => .error "the app context is required for targeting filter and must be of type TargetingContext"

/-! ## part_003 : validateFeatureFlag -/

/-- The client-filter loop of `validateConditions` (part_003 lines 96-100). -/
def validateClientFilters (id : String) : List ClientFilter → Except String Unit
  | [] => .ok ()
  | f :: rest =>
    if f.Name == "" then .error ("invalid feature flag " ++ id ++ ": client filter missing name")
    else validateClientFilters id rest

/-- `validateConditions` (part_003 lines 87-103). -/
def validateConditions (id : String) (conds : Conditions) : Except String Unit :=
  if conds.RequirementType != "" && conds.RequirementType != RequirementTypeAny &&
      conds.RequirementType != RequirementTypeAll then
    .error ("invalid feature flag " ++ id ++ ": requirement_type must be Any or All")
  else validateClientFilters id conds.ClientFilters

/-- `validateVariantsDefinition` (part_003 lines 105-120). -/
def validateVariantsDefinition (id : String) : List VariantDefinition → Except String Unit
  | [] => .ok ()
  | v :: rest =>
    if v.Name == "" then .error ("invalid feature flag " ++ id ++ ": variant missing name")
    else if v.StatusOverride != "" && v.StatusOverride != StatusOverrideNone &&
        v.StatusOverride != StatusOverrideEnabled && v.StatusOverride != StatusOverrideDisabled then
      .error ("invalid feature flag " ++ id ++
        ": variant status_override must be None, Enabled, or Disabled")
    else validateVariantsDefinition id rest

/-- The percentile loop of `validateAllocation` (part_003 lines 124-136). -/
def validatePercentileAllocations (id : String) : List PercentileAllocation → Except String Unit
  | [] => .ok ()
  | p :: rest =>
    if p.Variant == "" then
      .error ("invalid feature flag " ++ id ++ ": percentile allocation missing variant")
    else if p.From < 0 ∨ p.From > 100 then
      .error ("invalid feature flag " ++ id ++ ": percentile from must be between 0 and 100")
    else if p.To < 0 ∨ p.To > 100 then
      .error ("invalid feature flag " ++ id ++ ": percentile to must be between 0 and 100")
    else validatePercentileAllocations id rest

/-- The user loop of `validateAllocation` (part_003 lines 139-147). -/
def validateUserAllocations (id : String) : List UserAllocation → Except String Unit
  | [] => .ok ()
  | u :: rest =>
    if u.Variant == "" then
      .error ("invalid feature flag " ++ id ++ ": user allocation missing variant")
    else if u.Users.isEmpty then
      .error ("invalid feature flag " ++ id ++ ": user allocation has empty users list")
    else validateUserAllocations id rest

/-- The group loop of `validateAllocation` (part_003 lines 149-157). -/
def validateGroupAllocations (id : String) : List GroupAllocation → Except String Unit
  | [] => .ok ()
  | g :: rest =>
    if g.Variant == "" then
      .error ("invalid feature flag " ++ id ++ ": group allocation missing variant")
    else if g.Groups.isEmpty then
      .error ("invalid feature flag " ++ id ++ ": group allocation has empty groups list")
    else validateGroupAllocations id rest

/-- `validateAllocation` (part_003 lines 122-160). -/
def validateAllocation (id : String) (alloc : VariantAllocation) : Except String Unit :=
  match validatePercentileAllocations id alloc.Percentile with
  | .error e => .error e
  | .ok _ =>
    match validateUserAllocations id alloc.User with
    | .error e => .error e
    | .ok _ => validateGroupAllocations id alloc.Group

/-- `validateFeatureFlag` (part_003 lines 58-85). -/
def validateFeatureFlag (flag : FeatureFlag) : Except String Unit :=
  if flag.ID == "" then .error "feature flag ID is required"
  else
    match (match flag.Conditions with
           | some c => validateConditions flag.ID c
           | none => .ok ()) with
    | .error e => .error e
    | .ok _ =>
      match (if flag.Variants.length > 0 then validateVariantsDefinition flag.ID flag.Variants
             else .ok ()) with
      | .error e => .error e
      | .ok _ =>
        match flag.Allocation with
        | some a => validateAllocation flag.ID a
        | none => .ok ()

/-! ## feature_manager.go : condition evaluator -/

/-- The filter loop of `isEnabled` (feature_manager.go lines 199-225):
an unresolved filter name returns `false` with no error; a filter error
aborts with a wrapped error; a filter result equal to the short-circuit value
returns immediately; a completed loop returns the opposite value. -/
def evalFilterList (fm : FeatureManager) (flagID : String) (appCtx : GoAny)
    (shortCircuitEvalResult : Bool) : List ClientFilter → Except String Bool
  | [] => .ok !shortCircuitEvalResult
  | cf :: rest =>
    match fm.featureFilters cf.Name with
    | none => .ok false
    | some filt =>
      match filt ⟨flagID, cf.Parameters⟩ appCtx with
      | .error e => .error ("error evaluating filter " ++ cf.Name ++ ": " ++ e)
      | .ok b =>
        if b == shortCircuitEvalResult then .ok shortCircuitEvalResult
        else evalFilterList fm flagID appCtx shortCircuitEvalResult rest

/-- Lines 187-196 of feature_manager.go: the requirement type defaults to
`Any` when empty, and the short-circuit result is whether it equals `Any`. -/
def shortCircuitValue (conds : Conditions) : Bool :=
  (if conds.RequirementType == "" then RequirementTypeAny else conds.RequirementType) ==
    RequirementTypeAny

/-- `isEnabled` (feature_manager.go lines 176-226). -/
def isEnabled (fm : FeatureManager) (flag : FeatureFlag) (appCtx : GoAny) : Except String Bool :=
  if !flag.Enabled then .ok false
  else
    match flag.Conditions with
    | none => .ok true
    | some conds =>
      if conds.ClientFilters.isEmpty then .ok true
      else evalFilterList fm flag.ID appCtx (shortCircuitValue conds) conds.ClientFilters

/-- The outcome of resolving and invoking one declared filter, exactly as the
loop of `isEnabled` does for each list entry: `none` when the name is not in
the registry, otherwise the filter call result. -/
def filterOutcome (fm : FeatureManager) (flagID : String) (appCtx : GoAny) (cf : ClientFilter) :
    Option (Except String Bool) :=
  (fm.featureFilters cf.Name).map (fun filt => filt ⟨flagID, cf.Parameters⟩ appCtx)

/-! ## feature_manager.go : variant allocator -/

/-- `getVariant` (feature_manager.go lines 313-321). -/
def getVariant (variants : List VariantDefinition) (name : String) : Option VariantDefinition :=
  variants.find? (fun v => v.Name == name)

/-- `variantAssignment` (feature_manager.go lines 323-326); `Variant = none`
models the Go `nil` pointer inside the struct. -/
structure variantAssignment where
  Variant : Option VariantDefinition
  Reason : String

/-- `getVariantAssignment` (feature_manager.go lines 328-343): an empty or
unknown variant name yields the Go `nil` pointer (here `none`); the unknown
case additionally logs a warning. -/
def getVariantAssignment (flag : FeatureFlag) (variantName : String) (reason : String) :
    Option variantAssignment :=
  if variantName == "" then none
  else
    match getVariant flag.Variants variantName with
    | none => none
    | some v => some ⟨some v, reason⟩

/-- The percentile loop of `assignVariant` (feature_manager.go lines 366-377);
the error of `isTargetedPercentile` is discarded (`ok, _ :=`), so an invalid
range simply fails to match. -/
def percentileAllocLoop (flag : FeatureFlag) (alloc : VariantAllocation) (tc : TargetingContext) :
    List PercentileAllocation → Option PercentileAllocation
  | [] => none
  | pa :: rest =>
    let hint := if alloc.Seed == "" then "allocation\n" ++ flag.ID else alloc.Seed
    match isTargetedPercentile tc.UserID hint pa.From pa.To with
    | .ok true => some pa
    | _ => percentileAllocLoop flag alloc tc rest

/-- `assignVariant` (feature_manager.go lines 345-383). -/
def assignVariant (flag : FeatureFlag) (tc : TargetingContext) :
    Except String (Option variantAssignment) :=
  match flag.Allocation with
  | none => .error ("no allocation defined for feature " ++ flag.ID)
  | some alloc =>
    match alloc.User.find? (fun ua => isTargetedUser tc.UserID ua.Users) with
    | some ua => .ok (getVariantAssignment flag ua.Variant VariantAssignmentReasonUser)
    | none =>
      match alloc.Group.find? (fun ga => isTargetedGroup tc.Groups ga.Groups) with
      | some ga => .ok (getVariantAssignment flag ga.Variant VariantAssignmentReasonGroup)
      | none =>
        match percentileAllocLoop flag alloc tc alloc.Percentile with
        | some pa => .ok (getVariantAssignment flag pa.Variant VariantAssignmentReasonPercentile)
        | none => .ok (some ⟨none, VariantAssignmentReasonNone⟩)

/-! ## feature_manager.go : evaluation orchestrator -/

/-- `EvaluationResult` (feature_manager.go lines 12-23). -/
structure EvaluationResult where
  Feature : FeatureFlag
  Enabled : Bool
  TargetingID : String
  Variant : Option Variant
  VariantAssignmentReason : String

/-- Outcome of a Go call that can return normally, return an error, or crash
with a runtime panic such as a nil-pointer dereference. -/
inductive EvalOutcome (α : Type) where
  | ok (a : α)
  | err (e : String)
  | crash

/-- Lines 245-251 of feature_manager.go: the targeting context used for
variant assignment (and the targeting id) is extracted only when the app
context is a `*TargetingContext` pointer. -/
def ptrTargetingContext : GoAny → Option TargetingContext
  | .targetingCtxPtr tc => some tc
  | _ => none

/-- Lines 273-279 of feature_manager.go: when allocation produced no variant
and no reason, fall back to `DefaultWhenEnabled` (the reason is set even when
the default variant name is absent or unknown). -/
def applyDefaultWhenEnabled (flag : FeatureFlag) (variantDef : Option VariantDefinition)
    (reason : String) : Option VariantDefinition × String :=
  if variantDef.isNone && reason == VariantAssignmentReasonNone then
    (match flag.Allocation with
     | some alloc =>
       if alloc.DefaultWhenEnabled != "" then getVariant flag.Variants alloc.DefaultWhenEnabled
       else none
     | none => none,
     VariantAssignmentReasonDefaultWhenEnabled)
  else (variantDef, reason)

/-- The variant-determination block of `evaluateFeature`
(feature_manager.go lines 253-281).  Result `none` models the runtime panic:
when `assignVariant` returns a `nil` assignment with a `nil` error, line 268
dereferences the `nil` pointer (`variantAssignment.Variant`). -/
def selectVariant (flag : FeatureFlag) (targetingContext : Option TargetingContext)
    (enabled : Bool) : Option (Option VariantDefinition × String) :=
  if flag.Variants.isEmpty then some (none, VariantAssignmentReasonNone)
  else if !enabled then
    some
      (match flag.Allocation with
       | some alloc =>
         if alloc.DefaultWhenDisabled != "" then getVariant flag.Variants alloc.DefaultWhenDisabled
         else none
       | none => none,
       VariantAssignmentReasonDefaultWhenDisabled)
  else
    match targetingContext, flag.Allocation with
    | some tc, some _ =>
      match assignVariant flag tc with
      | .ok none => none
      | .ok (some va) => some (applyDefaultWhenEnabled flag va.Variant va.Reason)
      | .error _ => some (applyDefaultWhenEnabled flag none VariantAssignmentReasonNone)
    | _, _ => some (applyDefaultWhenEnabled flag none VariantAssignmentReasonNone)

/-- Lines 292-299 of feature_manager.go: a selected variant's status override
rewrites the computed enabled boolean only when the flag itself is enabled. -/
def applyStatusOverride (flagEnabled : Bool) (variantDef : Option VariantDefinition)
    (computedEnabled : Bool) : Bool :=
  match variantDef with
  | some vd =>
    if flagEnabled then
      if vd.StatusOverride == StatusOverrideEnabled then true
      else if vd.StatusOverride == StatusOverrideDisabled then false
      else computedEnabled
    else computedEnabled
  | none => computedEnabled

/-- Lines 245-251 of feature_manager.go: the result's `TargetingID` is the
user id of the app context when (and only when) it is a `*TargetingContext`
pointer, and stays the zero value `""` otherwise. -/
def targetingIDFrom (appCtx : GoAny) : String :=
  match ptrTargetingContext appCtx with
  | some tc => tc.UserID
  | none => ""

/-- `evaluateFeature` (feature_manager.go lines 228-311).  The telemetry
callback dispatch (lines 301-308) only invokes observers and does not change
the result, so it is not part of the value-level model. -/
def evaluateFeature (fm : FeatureManager) (flag : FeatureFlag) (appCtx : GoAny) :
    EvalOutcome EvaluationResult :=
  match validateFeatureFlag flag with
  | .error e => .err ("invalid feature flag: " ++ e)
  | .ok _ =>
    match isEnabled fm flag appCtx with
    | .error e => .err e
    | .ok enabled =>
      match selectVariant flag (ptrTargetingContext appCtx) enabled with
      | none => .crash
      | some (variantDef, reason) =>
        .ok ⟨flag,
             applyStatusOverride flag.Enabled variantDef enabled,
             targetingIDFrom appCtx,
             variantDef.map (fun vd => ⟨vd.Name, vd.ConfigurationValue⟩),
             reason⟩

/-- `GetFeatureNames` (feature_manager.go lines 161-174), with the provider
call result passed in explicitly.  Go `make([]string, len(flags))` creates
`len(flags)` empty strings and the loop then appends after them; a provider
error is logged and `nil` (here `none`) returned. -/
def GetFeatureNames (providerFlags : Except String (List FeatureFlag)) : Option (List String) :=
  match providerFlags with
  | .error _ => none
  | .ok flags => some (List.replicate flags.length "" ++ flags.map FeatureFlag.ID)

/-! ## part_002 : the time-window filter -/

/-- `TimeWindowFilterParameters` (part_002); after JSON decoding an absent
bound is the empty string. -/
structure TimeWindowFilterParameters where
  Start : String
  End : String

/-- Abstract interface of Go stdlib `time.Parse layout value`: `none` models
a parse error.  A time instant is an integer (nanoseconds since the epoch);
only its ordering is used by the filter. -/
def GoParseFn : Type := String → String → Option Int

/-- The Go `time` package reference layouts, in exactly the order tried by
`parseTime` (part_002 lines 76-88): RFC1123, RFC3339, RFC3339Nano, RFC1123Z,
RFC822, RFC822Z, RFC850, UnixDate, RubyDate, ANSIC, Layout. -/
def timeFormats : List String :=
  ["Mon, 02 Jan 2006 15:04:05 MST",
   "2006-01-02T15:04:05Z07:00",
   "2006-01-02T15:04:05.999999999Z07:00",
   "Mon, 02 Jan 2006 15:04:05 -0700",
   "02 Jan 06 15:04 MST",
   "02 Jan 06 15:04 -0700",
   "Monday, 02-Jan-06 15:04:05 MST",
   "Mon Jan _2 15:04:05 MST 2006",
   "Mon Jan 02 15:04:05 -0700 2006",
   "Mon Jan _2 15:04:05 2006",
   "01/02 03:04:05PM \x2706 -0700"]

/-- The format-attempt loop of `parseTime` (part_002 lines 93-99): first
successful format wins. -/
def parseTimeWith (goParse : GoParseFn) (timeStr : String) : List String → Except String Int
  | [] => .error ("unable to parse time " ++ timeStr ++ " with any known format")
  | fmt :: rest =>
    match goParse fmt timeStr with
    | some t => .ok t
    | none => parseTimeWith goParse timeStr rest

/-- `parseTime` (part_002 lines 74-104). -/
def parseTime (goParse : GoParseFn) (timeStr : String) : Except String Int :=
  parseTimeWith goParse timeStr timeFormats

/-- `TimeWindowFilter.Evaluate` (part_002 lines 25-72), with the JSON
parameter round-trip external (parameters arrive as the decoded struct) and
`time.Now()` passed in as `now`. -/
def TimeWindowFilter.Evaluate (goParse : GoParseFn) (featureName : String)
    (params : TimeWindowFilterParameters) (now : Int) : Except String Bool :=
  let startRes : Except String (Option Int) :=
    if params.Start != "" then
      match parseTime goParse params.Start with
      | .ok t => .ok (some t)
      | .error e => .error ("invalid start time format for feature " ++ featureName ++ ": " ++ e)
    else .ok none
  match startRes with
  | .error e => .error e
  | .ok startTime =>
    let endRes : Except String (Option Int) :=
      if params.End != "" then
        match parseTime goParse params.End with
        | .ok t => .ok (some t)
        | .error e => .error ("invalid end time format for feature " ++ featureName ++ ": " ++ e)
      else .ok none
    match endRes with
    | .error e => .error e
    | .ok endTime =>
      if startTime.isNone && endTime.isNone then .ok false
      else
        let isAfterStart := match startTime with | none => true | some st => !(decide (now < st))
        let isBeforeEnd := match endTime with | none => true | some et => decide (now < et)
        .ok (isAfterStart && isBeforeEnd)

/-! ## Spec-side definition and concrete evaluation instances -/

/-- The percentile-bucket value prescribed by the specification (section
4.1): `(uint32 / 2 ^ 32) * 100`.  This definition follows the wording of the
spec and exists only to be compared with `contextPercentage`, the value the
code computes. -/
def specPercentileBucket (s : String) : ℚ :=
  ((hashStringToUint32 s : ℚ) / (mask32 : ℚ)) * 100

/-- A manager whose registry resolves no filter name. -/
def emptyRegistryFM : FeatureManager := ⟨fun _ => none⟩

/-- A manager whose registry resolves exactly the name "F" to a filter that
always returns `true`. -/
def fmOnlyF : FeatureManager :=
  ⟨fun n => if n == "F" then some (fun _ _ => .ok true) else none⟩

/-- Conditions declaring requirement type Any with filters "F" then
"Missing". -/
def condsFMissing : Conditions := ⟨"Any", [⟨"F", []⟩, ⟨"Missing", []⟩]⟩

/-- An enabled flag whose second declared filter name resolves to nothing. -/
def flagFMissing : FeatureFlag := ⟨"feat", "", "", true, some condsFMissing, [], none, none⟩

/-- Conditions declaring requirement type Any with the single filter "X". -/
def condsOnlyX : Conditions := ⟨"Any", [⟨"X", []⟩]⟩

/-- An enabled flag whose only declared filter name is "X". -/
def flagOnlyX : FeatureFlag := ⟨"feat", "", "", true, some condsOnlyX, [], none, none⟩

/-- An enabled flag whose only declared filter name is "F". -/
def flagOnlyF : FeatureFlag := ⟨"feat", "", "", true, some ⟨"Any", [⟨"F", []⟩]⟩, [], none, none⟩

/-- An enabled flag declaring variant "A" while its user allocation rule
references the absent variant name "B" for user "u". -/
def flagMissingVariant : FeatureFlag :=
  ⟨"feat", "", "", true, none, [⟨"A", .null, ""⟩],
   some ⟨"", "", [⟨"B", ["u"]⟩], [], [], ""⟩, none⟩

/-- A variant definition carrying a Disabled status override. -/
def vdOverride : VariantDefinition := ⟨"A", .null, "Disabled"⟩

/-- An enabled flag with a DefaultWhenEnabled variant whose status override
is Disabled. -/
def flagOverride : FeatureFlag :=
  ⟨"feat", "", "", true, none, [vdOverride], some ⟨"", "A", [], [], [], ""⟩, none⟩

/-- The evaluation result of `flagOverride` with a nil app context. -/
def resOverride : EvaluationResult :=
  ⟨flagOverride, false, "", some ⟨"A", .null⟩, "DefaultWhenEnabled"⟩

/-- An enabled flag with no conditions, variants or allocation. -/
def flagPlain : FeatureFlag := ⟨"feat", "", "", true, none, [], none, none⟩

/-- The evaluation result of `flagPlain` under a `*TargetingContext` app
context for user "u". -/
def resPlainPtr : EvaluationResult := ⟨flagPlain, true, "u", none, "None"⟩

/-- Targeting parameters with a zero default rollout and no audience. -/
def paramsEmptyAudience : TargetingFilterParameters := ⟨⟨0, [], [], none⟩⟩

/-- A concrete stand-in for Go `time.Parse` that accepts the value "start"
as instant 0 and the value "stop" as instant 10 under every layout. -/
def gpStartStop : GoParseFn :=
  fun _ v => if v == "start" then some 0 else if v == "stop" then some 10 else none

set_option maxRecDepth 10000

/-- Sanity check against the FIPS 180-4 test vector: SHA-256 of the empty
string starts with bytes `e3 b0 c4 42`. -/
theorem sha256_empty_vector : (sha256 []).take 4 = [0xe3, 0xb0, 0xc4, 0x42] := by decide

/-- Sanity check against the FIPS 180-4 test vector for "abc". -/
theorem sha256_abc_vector : (sha256 (strBytes "abc")).take 4 = [0xba, 0x78, 0x16, 0xbf] := by decide

/-- The hash of the empty string as a little-endian `uint32`. -/
theorem hashStringToUint32_empty : hashStringToUint32 "" = 1120186595 := by decide

/-- The hash of the newline string (audience context id of empty user and
empty hint) as a little-endian `uint32`. -/
theorem hashStringToUint32_newline : hashStringToUint32 "\n" = 424131073 := by decide

/-! ## Range of the percentile bucket -/

/-- The little-endian `uint32` hash is below `2 ^ 32`. -/
theorem hashStringToUint32_lt (s : String) : hashStringToUint32 s < mask32 := by
  unfold hashStringToUint32
  exact Nat.mod_lt _ (by norm_num [mask32])

/-- The little-endian `uint32` hash is at most `math.MaxUint32`. -/
theorem hashStringToUint32_le (s : String) : hashStringToUint32 s ≤ maxUint32 := by
  have h := hashStringToUint32_lt s
  unfold mask32 at h
  unfold maxUint32
  omega

/-- The percentile bucket is nonnegative. -/
theorem contextPercentage_nonneg (s : String) : 0 ≤ contextPercentage s := by
  unfold contextPercentage
  positivity

/-- The percentile bucket is at most 100 (with equality exactly when the hash
is `2 ^ 32 - 1`). -/
theorem contextPercentage_le_100 (s : String) : contextPercentage s ≤ 100 := by
  unfold contextPercentage
  have h : (hashStringToUint32 s : ℚ) ≤ (maxUint32 : ℚ) := by
    exact_mod_cast hashStringToUint32_le s
  have hpos : (0 : ℚ) < (maxUint32 : ℚ) := by norm_num [maxUint32]
  have h1 : (hashStringToUint32 s : ℚ) / (maxUint32 : ℚ) ≤ 1 := (div_le_one hpos).mpr h
  nlinarith [h1]

/-- The bucket of the newline string as an explicit rational. -/
theorem contextPercentage_newline :
    contextPercentage (constructAudienceContextID "" "") = (42413107300 : ℚ) / 4294967295 := by
  have h : constructAudienceContextID "" "" = "\n" := rfl
  rw [h]
  unfold contextPercentage
  rw [hashStringToUint32_newline]
  rw [div_mul_eq_mul_div]
  norm_num [maxUint32]

/-- C1 counterexample: on the concrete input string consisting of a single
newline, the bucket the code computes (division by `2 ^ 32 - 1`, i.e.
`math.MaxUint32`) differs from the value the claim prescribes (division by
`2 ^ 32`). -/
theorem C1_counterexample : contextPercentage "\n" ≠ specPercentileBucket "\n" := by
  unfold contextPercentage specPercentileBucket
  rw [hashStringToUint32_newline]
  norm_num [maxUint32, mask32]

/-- C1 (amended): for every input string the percentile bucket is
deterministic (equal inputs yield equal buckets) and lies in the closed
interval `[0, 100]`; it equals the first 4 bytes of SHA-256 of the string
read as a little-endian unsigned 32-bit integer, divided by `2 ^ 32 - 1`
(`math.MaxUint32`) and multiplied by 100. -/
theorem C1_percentile_bucket (s1 s2 : String) (h : s1 = s2) :
    contextPercentage s1 = contextPercentage s2 ∧
    0 ≤ contextPercentage s1 ∧ contextPercentage s1 ≤ 100 ∧
    contextPercentage s1 = ((hashStringToUint32 s1 : ℚ) / ((2 ^ 32 - 1 : ℕ) : ℚ)) * 100 := by
  subst h
  exact ⟨rfl, contextPercentage_nonneg s1, contextPercentage_le_100 s1, rfl⟩

/-- Witness for C1 at the concrete input "a". -/
theorem C1_percentile_bucket_witness :
    contextPercentage "a" = contextPercentage "a" ∧
    0 ≤ contextPercentage "a" ∧ contextPercentage "a" ≤ 100 ∧
    contextPercentage "a" = ((hashStringToUint32 "a" : ℚ) / ((2 ^ 32 - 1 : ℕ) : ℚ)) * 100 :=
  C1_percentile_bucket "a" "a" rfl

/-! ## C6 : percentile boundary semantics -/

/-- Under valid bounds `0 ≤ f ≤ t ≤ 100` the membership check reduces to the
bucket comparison of targeting.go lines 153-158. -/
theorem isTargetedPercentile_valid (u h : String) (f t : ℚ)
    (hf : 0 ≤ f) (hft : f ≤ t) (ht : t ≤ 100) :
    isTargetedPercentile u h f t =
      (if t = 100 then
         Except.ok (decide (contextPercentage (constructAudienceContextID u h) ≥ f))
       else
         Except.ok (decide (contextPercentage (constructAudienceContextID u h) ≥ f ∧
                            contextPercentage (constructAudienceContextID u h) < t))) := by
  unfold isTargetedPercentile
  have h1 : ¬(f < 0 ∨ f > 100) := by rintro (hcon | hcon) <;> linarith
  have h2 : ¬(t < 0 ∨ t > 100) := by rintro (hcon | hcon) <;> linarith
  have h3 : ¬(f > t) := not_lt.mpr hft
  rw [if_neg h1, if_neg h2, if_neg h3]

/-- C6 counterexample: with empty user and empty hint the computed bucket is
exactly `42413107300 / 4294967295`.  Choosing `f` and `t` both equal to that
value gives valid bounds `0 ≤ f ≤ t ≤ 100` and a bucket numerically equal to
`f`, yet the membership check returns `false` where the claim requires
inclusion. -/
theorem C6_counterexample :
    (0 : ℚ) ≤ (42413107300 : ℚ) / 4294967295 ∧
    (42413107300 : ℚ) / 4294967295 ≤ 100 ∧
    contextPercentage (constructAudienceContextID "" "") = (42413107300 : ℚ) / 4294967295 ∧
    isTargetedPercentile "" "" ((42413107300 : ℚ) / 4294967295) ((42413107300 : ℚ) / 4294967295) =
      .ok false := by
  refine ⟨by norm_num, by norm_num, contextPercentage_newline, ?_⟩
  rw [isTargetedPercentile_valid _ _ _ _ (by norm_num) le_rfl (by norm_num)]
  rw [if_neg (by norm_num)]
  rw [contextPercentage_newline]
  simp [lt_irrefl]

/-- C6 (amended): for valid bounds `0 ≤ f ≤ t ≤ 100`, a bucket numerically
equal to `f` is included provided `f < t` or `t = 100`; a bucket equal to
`t` is excluded when `t < 100`; and when `t = 100` the upper bound is
inclusive: membership holds exactly when the bucket is at least `f`. -/
theorem C6_percentile_boundaries (u h : String) (f t : ℚ)
    (hf : 0 ≤ f) (hft : f ≤ t) (ht : t ≤ 100) :
    (contextPercentage (constructAudienceContextID u h) = f → (f < t ∨ t = 100) →
       isTargetedPercentile u h f t = .ok true) ∧
    (t < 100 → contextPercentage (constructAudienceContextID u h) = t →
       isTargetedPercentile u h f t = .ok false) ∧
    (t = 100 → (isTargetedPercentile u h f t = .ok true ↔
       f ≤ contextPercentage (constructAudienceContextID u h))) := by
  rw [isTargetedPercentile_valid u h f t hf hft ht]
  refine ⟨?_, ?_, ?_⟩
  · rintro hBf (hlt | h100)
    · by_cases h100 : t = 100
      · rw [if_pos h100]
        simp [hBf]
      · rw [if_neg h100]
        simp [hBf, hlt]
    · rw [if_pos h100]
      simp [hBf]
  · intro hlt hBt
    rw [if_neg (by linarith)]
    simp [hBt, hf, lt_irrefl]
  · intro h100
    rw [if_pos h100]
    simp [ge_iff_le]

/-- Witness for C6 at concrete bounds `f = 0`, `t = 100` and the newline
bucket: membership holds since the bucket is nonnegative. -/
theorem C6_percentile_boundaries_witness :
    isTargetedPercentile "" "" 0 100 = .ok true ↔
      (0 : ℚ) ≤ contextPercentage (constructAudienceContextID "" "") :=
  (C6_percentile_boundaries "" "" 0 100 le_rfl (by norm_num) le_rfl).2.2 rfl

/-! ## Condition evaluator lemmas -/

/-- A `some (.ok b)` filter outcome names a resolved filter returning `b`. -/
theorem filterOutcome_inv (fm : FeatureManager) (flagID : String) (appCtx : GoAny)
    (cf : ClientFilter) (r : Except String Bool)
    (h : filterOutcome fm flagID appCtx cf = some r) :
    ∃ filt, fm.featureFilters cf.Name = some filt ∧
      filt ⟨flagID, cf.Parameters⟩ appCtx = r := by
  unfold filterOutcome at h
  cases hh : fm.featureFilters cf.Name with
  | none => rw [hh] at h; simp at h
  | some filt =>
    rw [hh] at h
    simp at h
    exact ⟨filt, rfl, h⟩

/-- A step of the filter loop whose head does not resolve returns `ok false`. -/
theorem evalFilterList_cons_unresolved (fm : FeatureManager) (flagID : String) (appCtx : GoAny)
    (scv : Bool) (cf : ClientFilter) (rest : List ClientFilter)
    (h : fm.featureFilters cf.Name = none) :
    evalFilterList fm flagID appCtx scv (cf :: rest) = .ok false := by
  simp [evalFilterList, h]

/-- A step of the filter loop whose head filter errors aborts with the
wrapped error. -/
theorem evalFilterList_cons_error (fm : FeatureManager) (flagID : String) (appCtx : GoAny)
    (scv : Bool) (cf : ClientFilter) (rest : List ClientFilter) (filt : FilterFn) (e : String)
    (h : fm.featureFilters cf.Name = some filt)
    (he : filt ⟨flagID, cf.Parameters⟩ appCtx = .error e) :
    evalFilterList fm flagID appCtx scv (cf :: rest) =
      .error ("error evaluating filter " ++ cf.Name ++ ": " ++ e) := by
  simp [evalFilterList, h, he]

/-- A step of the filter loop whose head filter returns a boolean either
short-circuits or proceeds with the rest. -/
theorem evalFilterList_cons_ok (fm : FeatureManager) (flagID : String) (appCtx : GoAny)
    (scv : Bool) (cf : ClientFilter) (rest : List ClientFilter) (filt : FilterFn) (b : Bool)
    (h : fm.featureFilters cf.Name = some filt)
    (hb : filt ⟨flagID, cf.Parameters⟩ appCtx = .ok b) :
    evalFilterList fm flagID appCtx scv (cf :: rest) =
      if b == scv then .ok scv else evalFilterList fm flagID appCtx scv rest := by
  simp [evalFilterList, h, hb]

/-- A prefix of filters that all return the non-deciding value passes
through the loop unchanged. -/
theorem evalFilterList_append_pass (fm : FeatureManager) (flagID : String) (appCtx : GoAny)
    (scv : Bool) (pre rest : List ClientFilter)
    (hpre : ∀ c ∈ pre, filterOutcome fm flagID appCtx c = some (.ok !scv)) :
    evalFilterList fm flagID appCtx scv (pre ++ rest) =
      evalFilterList fm flagID appCtx scv rest := by
  induction pre with
  | nil => rfl
  | cons c pre ih =>
    obtain ⟨filt, hres, hval⟩ :=
      filterOutcome_inv fm flagID appCtx c _ (hpre c (List.mem_cons_self c pre))
    rw [List.cons_append,
        evalFilterList_cons_ok fm flagID appCtx scv c (pre ++ rest) filt (!scv) hres hval]
    rw [if_neg (by cases scv <;> simp)]
    exact ih (fun c hc => hpre c (List.mem_cons_of_mem _ hc))

/-- When every declared filter resolves and returns a boolean, the loop
returns the short-circuit value exactly when some filter returns it, and the
opposite value exactly when every filter returns the opposite value. -/
theorem evalFilterList_characterization (fm : FeatureManager) (flagID : String) (appCtx : GoAny)
    (scv : Bool) (cfs : List ClientFilter)
    (h : ∀ cf ∈ cfs, ∃ b, filterOutcome fm flagID appCtx cf = some (.ok b)) :
    (evalFilterList fm flagID appCtx scv cfs = .ok scv ↔
       ∃ cf ∈ cfs, filterOutcome fm flagID appCtx cf = some (.ok scv)) ∧
    (evalFilterList fm flagID appCtx scv cfs = .ok !scv ↔
       ∀ cf ∈ cfs, filterOutcome fm flagID appCtx cf = some (.ok !scv)) := by
  induction cfs with
  | nil => cases scv <;> simp [evalFilterList]
  | cons cf rest ih =>
    obtain ⟨b, hb⟩ := h cf (List.mem_cons_self cf rest)
    obtain ⟨filt, hres, hval⟩ := filterOutcome_inv fm flagID appCtx cf _ hb
    have hstep := evalFilterList_cons_ok fm flagID appCtx scv cf rest filt b hres hval
    have ihr := ih (fun c hc => h c (List.mem_cons_of_mem _ hc))
    by_cases hbs : b = scv
    · subst hbs
      rw [hstep, if_pos (by simp)]
      constructor
      · constructor
        · intro _
          exact ⟨cf, List.mem_cons_self cf rest, hb⟩
        · intro _
          rfl
      · constructor
        · intro hcon
          cases b <;> simp_all
        · intro hall
          have := hall cf (List.mem_cons_self cf rest)
          rw [hb] at this
          cases b <;> simp_all
    · have hbneg : b = !scv := by cases b <;> cases scv <;> simp_all
      subst hbneg
      rw [hstep, if_neg (by cases scv <;> simp)]
      constructor
      · rw [ihr.1]
        constructor
        · rintro ⟨c, hc, hcv⟩
          exact ⟨c, List.mem_cons_of_mem _ hc, hcv⟩
        · rintro ⟨c, hc, hcv⟩
          rcases List.mem_cons.mp hc with hceq | hcr
          · subst hceq
            rw [hb] at hcv
            cases scv <;> simp_all
          · exact ⟨c, hcr, hcv⟩
      · rw [ihr.2]
        constructor
        · intro hall c hc
          rcases List.mem_cons.mp hc with hceq | hcr
          · subst hceq
            exact hb
          · exact hall c hcr
        · intro hall c hc
          exact hall c (List.mem_cons_of_mem _ hc)

/-- For an enabled flag with a nonempty filter list, `isEnabled` is the
filter loop at the conditions' short-circuit value. -/
theorem isEnabled_eq_evalFilterList (fm : FeatureManager) (flag : FeatureFlag) (appCtx : GoAny)
    (conds : Conditions) (hen : flag.Enabled = true) (hc : flag.Conditions = some conds)
    (hne : conds.ClientFilters ≠ []) :
    isEnabled fm flag appCtx =
      evalFilterList fm flag.ID appCtx (shortCircuitValue conds) conds.ClientFilters := by
  cases hl : conds.ClientFilters with
  | nil => exact absurd hl hne
  | cons a l =>
    rw [← hl]
    unfold isEnabled
    rw [hen, hc]
    simp [hl]

/-- With requirement type All the short-circuit value is `false`. -/
theorem shortCircuitValue_all (conds : Conditions)
    (h : conds.RequirementType = RequirementTypeAll) : shortCircuitValue conds = false := by
  unfold shortCircuitValue
  rw [h]
  rfl

/-- With requirement type Any, or an empty requirement type (the default),
the short-circuit value is `true`. -/
theorem shortCircuitValue_any (conds : Conditions)
    (h : conds.RequirementType = RequirementTypeAny ∨ conds.RequirementType = "") :
    shortCircuitValue conds = true := by
  unfold shortCircuitValue
  rcases h with h | h <;> rw [h] <;> rfl

/-- C3: a disabled flag evaluates to `ok false` whatever the registry and
filters are (so no filter is consulted); an enabled flag with no declared
filters evaluates to `ok true`; when every declared filter resolves and
returns a boolean, requirement type All yields `true` iff every filter
returns `true`, and requirement type Any (or the empty default) yields
`true` iff some filter returns `true`; and the loop short-circuits: as soon
as a filter returns the deciding value the verdict is fixed, whatever
filters follow. -/
theorem C3_requirement_types (fm : FeatureManager) (flag : FeatureFlag) (appCtx : GoAny) :
    (flag.Enabled = false → isEnabled fm flag appCtx = .ok false) ∧
    (flag.Enabled = true → flag.Conditions = none → isEnabled fm flag appCtx = .ok true) ∧
    (∀ conds, flag.Enabled = true → flag.Conditions = some conds → conds.ClientFilters = [] →
       isEnabled fm flag appCtx = .ok true) ∧
    (∀ conds, flag.Enabled = true → flag.Conditions = some conds → conds.ClientFilters ≠ [] →
       (∀ cf ∈ conds.ClientFilters, ∃ b, filterOutcome fm flag.ID appCtx cf = some (.ok b)) →
       ((conds.RequirementType = RequirementTypeAll →
          (isEnabled fm flag appCtx = .ok true ↔
            ∀ cf ∈ conds.ClientFilters, filterOutcome fm flag.ID appCtx cf = some (.ok true))) ∧
        (conds.RequirementType = RequirementTypeAny ∨ conds.RequirementType = "" →
          (isEnabled fm flag appCtx = .ok true ↔
            ∃ cf ∈ conds.ClientFilters, filterOutcome fm flag.ID appCtx cf = some (.ok true))))) ∧
    (∀ conds pre cf post, flag.Enabled = true → flag.Conditions = some conds →
       conds.ClientFilters = pre ++ cf :: post →
       (∀ c ∈ pre, filterOutcome fm flag.ID appCtx c = some (.ok (!shortCircuitValue conds))) →
       filterOutcome fm flag.ID appCtx cf = some (.ok (shortCircuitValue conds)) →
       isEnabled fm flag appCtx = .ok (shortCircuitValue conds)) := by
  refine ⟨?_, ?_, ?_, ?_, ?_⟩
  · intro h
    unfold isEnabled
    rw [h]
    rfl
  · intro hen hc
    unfold isEnabled
    rw [hen, hc]
    rfl
  · intro conds hen hc hnil
    unfold isEnabled
    rw [hen, hc]
    simp [hnil]
  · intro conds hen hc hne hall
    have heq := isEnabled_eq_evalFilterList fm flag appCtx conds hen hc hne
    constructor
    · intro hrt
      have hscv := shortCircuitValue_all conds hrt
      have hchar := evalFilterList_characterization fm flag.ID appCtx
        (shortCircuitValue conds) conds.ClientFilters hall
      rw [heq, hscv] at *
      have := hchar.2
      simpa using this
    · intro hrt
      have hscv := shortCircuitValue_any conds hrt
      have hchar := evalFilterList_characterization fm flag.ID appCtx
        (shortCircuitValue conds) conds.ClientFilters hall
      rw [heq, hscv] at *
      simpa using hchar.1
  · intro conds pre cf post hen hc hsplit hpre hcf
    have hne : conds.ClientFilters ≠ [] := by
      rw [hsplit]
      simp
    have heq := isEnabled_eq_evalFilterList fm flag appCtx conds hen hc hne
    obtain ⟨filt, hres, hval⟩ := filterOutcome_inv fm flag.ID appCtx cf _ hcf
    rw [heq, hsplit,
        evalFilterList_append_pass fm flag.ID appCtx (shortCircuitValue conds) pre _ hpre,
        evalFilterList_cons_ok fm flag.ID appCtx (shortCircuitValue conds) cf post filt _ hres hval,
        if_pos (by simp)]

/-- Witness for C3: the manager resolving only "F" (to a constantly-true
filter) on an enabled flag declaring the single filter "F" under Any. -/
theorem C3_requirement_types_witness : isEnabled fmOnlyF flagOnlyF GoAny.null = .ok true := by
  have h := ((C3_requirement_types fmOnlyF flagOnlyF GoAny.null).2.2.2.1
    ⟨"Any", [⟨"F", []⟩]⟩ rfl rfl (by simp)
    (fun cf hcf => by
      simp at hcf
      subst hcf
      exact ⟨true, rfl⟩)).2 (Or.inl rfl)
  exact h.mpr ⟨⟨"F", []⟩, by simp, rfl⟩

/-- C5 counterexample: in `flagFMissing` the declared filter "Missing" does
not resolve in the registry, yet evaluation returns `ok true` (the earlier
filter "F" short-circuits the Any requirement before "Missing" is reached),
not `ok false` as the claim states. -/
theorem C5_counterexample :
    fmOnlyF.featureFilters "Missing" = none ∧
    isEnabled fmOnlyF flagFMissing GoAny.null = .ok true := ⟨rfl, rfl⟩

/-- C5 (amended): for an enabled flag with declared filters, when the loop
reaches a declared filter without an earlier filter having decided the
outcome (every earlier filter resolved and returned the non-deciding value):
if that filter's name is not in the registry, evaluation returns `ok false`
with no error and no later filter is consulted (the conclusion holds for
every suffix `post`); if it resolves but its evaluate call errors, the whole
evaluation aborts with that error wrapped. -/
theorem C5_filter_resolution (fm : FeatureManager) (flag : FeatureFlag) (appCtx : GoAny)
    (conds : Conditions) (pre : List ClientFilter) (cf : ClientFilter) (post : List ClientFilter)
    (hen : flag.Enabled = true) (hc : flag.Conditions = some conds)
    (hsplit : conds.ClientFilters = pre ++ cf :: post)
    (hpre : ∀ c ∈ pre, filterOutcome fm flag.ID appCtx c = some (.ok (!shortCircuitValue conds))) :
    (fm.featureFilters cf.Name = none → isEnabled fm flag appCtx = .ok false) ∧
    (∀ filt e, fm.featureFilters cf.Name = some filt →
       filt ⟨flag.ID, cf.Parameters⟩ appCtx = .error e →
       isEnabled fm flag appCtx = .error ("error evaluating filter " ++ cf.Name ++ ": " ++ e)) := by
  have hne : conds.ClientFilters ≠ [] := by
    rw [hsplit]
    simp
  have heq := isEnabled_eq_evalFilterList fm flag appCtx conds hen hc hne
  constructor
  · intro hmiss
    rw [heq, hsplit,
        evalFilterList_append_pass fm flag.ID appCtx (shortCircuitValue conds) pre _ hpre,
        evalFilterList_cons_unresolved fm flag.ID appCtx (shortCircuitValue conds) cf post hmiss]
  · intro filt e hres herr
    rw [heq, hsplit,
        evalFilterList_append_pass fm flag.ID appCtx (shortCircuitValue conds) pre _ hpre,
        evalFilterList_cons_error fm flag.ID appCtx (shortCircuitValue conds) cf post filt e hres herr]

/-- Witness for C5: with an empty registry, the enabled flag declaring the
single filter "X" evaluates to `ok false` with no error. -/
theorem C5_filter_resolution_witness : isEnabled emptyRegistryFM flagOnlyX GoAny.null = .ok false :=
  (C5_filter_resolution emptyRegistryFM flagOnlyX GoAny.null condsOnlyX [] ⟨"X", []⟩ []
    rfl rfl rfl (by simp)).1 rfl

/-! ## C2 : missing variant referenced by a matching allocation rule -/

/-- C2 (code bug): for the concrete enabled flag `flagMissingVariant` whose
user allocation rule matches user "u" but references the absent variant name
"B", the rule matches, the variant lookup fails, and the evaluation crashes
with a nil-pointer dereference (feature_manager.go line 268 dereferences the
`nil` assignment returned by `getVariantAssignment`) instead of completing
with an `EvaluationResult` as the claim states. -/
theorem C2_missing_variant_crash :
    isTargetedUser "u" ["u"] = true ∧
    getVariant flagMissingVariant.Variants "B" = none ∧
    evaluateFeature emptyRegistryFM flagMissingVariant (.targetingCtxPtr ⟨"u", []⟩) = .crash :=
  ⟨rfl, rfl, rfl⟩

/-! ## Orchestrator inversion and status-override lemmas -/

/-- Any successful evaluation is assembled from the validation, the enabled
verdict, the selected variant, and the status override, exactly as
`evaluateFeature` builds it. -/
theorem evaluateFeature_ok_inv (fm : FeatureManager) (flag : FeatureFlag) (appCtx : GoAny)
    (r : EvaluationResult) (h : evaluateFeature fm flag appCtx = .ok r) :
    ∃ en vd reason,
      isEnabled fm flag appCtx = .ok en ∧
      selectVariant flag (ptrTargetingContext appCtx) en = some (vd, reason) ∧
      r = ⟨flag, applyStatusOverride flag.Enabled vd en, targetingIDFrom appCtx,
           vd.map (fun v => ⟨v.Name, v.ConfigurationValue⟩), reason⟩ := by
  unfold evaluateFeature at h
  cases hv : validateFeatureFlag flag with
  | error e => rw [hv] at h; simp at h
  | ok u =>
    rw [hv] at h
    dsimp only at h
    cases he : isEnabled fm flag appCtx with
    | error e => rw [he] at h; simp at h
    | ok en =>
      rw [he] at h
      dsimp only at h
      cases hs : selectVariant flag (ptrTargetingContext appCtx) en with
      | none => rw [hs] at h; simp at h
      | some p =>
        obtain ⟨vd, reason⟩ := p
        rw [hs] at h
        dsimp only at h
        injection h with h
        exact ⟨en, vd, reason, rfl, hs, h.symm⟩

/-- A flag whose `Enabled` field is false never has its computed verdict
rewritten by a status override. -/
theorem applyStatusOverride_not_enabled (vd : Option VariantDefinition) (c : Bool) :
    applyStatusOverride false vd c = c := by
  cases vd <;> simp [applyStatusOverride]

/-- A Disabled override on an enabled flag forces `false`. -/
theorem applyStatusOverride_disabled (v : VariantDefinition) (c : Bool)
    (h : v.StatusOverride = StatusOverrideDisabled) :
    applyStatusOverride true (some v) c = false := by
  unfold applyStatusOverride
  dsimp only
  rw [h]
  rfl

/-- An Enabled override on an enabled flag forces `true`. -/
theorem applyStatusOverride_enabled (v : VariantDefinition) (c : Bool)
    (h : v.StatusOverride = StatusOverrideEnabled) :
    applyStatusOverride true (some v) c = true := by
  unfold applyStatusOverride
  dsimp only
  rw [h]
  rfl

/-- Any other override value leaves the computed verdict unchanged. -/
theorem applyStatusOverride_other (v : VariantDefinition) (c : Bool)
    (h1 : v.StatusOverride ≠ StatusOverrideDisabled)
    (h2 : v.StatusOverride ≠ StatusOverrideEnabled) :
    applyStatusOverride true (some v) c = c := by
  have hb1 : (v.StatusOverride == StatusOverrideEnabled) = false := beq_eq_false_iff_ne.mpr h2
  have hb2 : (v.StatusOverride == StatusOverrideDisabled) = false := beq_eq_false_iff_ne.mpr h1
  simp [applyStatusOverride, hb1, hb2]

/-- A disabled flag evaluates with `en = false` from the condition step. -/
theorem isEnabled_of_not_enabled (fm : FeatureManager) (flag : FeatureFlag) (appCtx : GoAny)
    (h : flag.Enabled = false) : isEnabled fm flag appCtx = .ok false := by
  unfold isEnabled
  rw [h]
  rfl

/-- C7: a successful evaluation of a flag whose `Enabled` field is false
always reports `Enabled = false` (no variant override applies); and when the
flag's `Enabled` field is true and a variant was selected, a Disabled status
override forces the result to disabled, an Enabled override forces it to
enabled, and any other override value leaves the computed verdict unchanged. -/
theorem C7_status_override (fm : FeatureManager) (flag : FeatureFlag) (appCtx : GoAny) :
    (∀ r, flag.Enabled = false → evaluateFeature fm flag appCtx = .ok r →
       r.Enabled = false) ∧
    (∀ en vd reason r, isEnabled fm flag appCtx = .ok en →
       selectVariant flag (ptrTargetingContext appCtx) en = some (vd, reason) →
       evaluateFeature fm flag appCtx = .ok r →
       ((flag.Enabled = true → ∀ v, vd = some v →
           ((v.StatusOverride = StatusOverrideDisabled → r.Enabled = false) ∧
            (v.StatusOverride = StatusOverrideEnabled → r.Enabled = true) ∧
            (v.StatusOverride ≠ StatusOverrideDisabled →
               v.StatusOverride ≠ StatusOverrideEnabled → r.Enabled = en))) ∧
        (flag.Enabled = false → r.Enabled = en))) := by
  constructor
  · intro r hdis hok
    obtain ⟨en, vd, reason, he, _, hr⟩ := evaluateFeature_ok_inv fm flag appCtx r hok
    have hen0 : en = false := by
      rw [isEnabled_of_not_enabled fm flag appCtx hdis] at he
      injection he with he
      exact he.symm
    subst hen0
    rw [hr, hdis]
    exact applyStatusOverride_not_enabled vd false
  · intro en vd reason r he hs hok
    obtain ⟨en2, vd2, reason2, he2, hs2, hr⟩ := evaluateFeature_ok_inv fm flag appCtx r hok
    rw [he] at he2
    injection he2 with hen
    rw [← hen] at hs2 hr
    rw [hs] at hs2
    injection hs2 with hp
    have hvd : vd = vd2 := congrArg Prod.fst hp
    rw [← hvd] at hr
    constructor
    · intro hen v hv
      subst hv
      rw [hr, hen]
      exact ⟨fun hso => applyStatusOverride_disabled v en hso,
             fun hso => applyStatusOverride_enabled v en hso,
             fun hso1 hso2 => applyStatusOverride_other v en hso1 hso2⟩
    · intro hdis
      rw [hr, hdis]
      exact applyStatusOverride_not_enabled vd en

/-- Witness for C7 on the concrete flag `flagOverride`: the
`DefaultWhenEnabled` variant carries a Disabled override and the final
result is disabled although the flag itself is enabled. -/
theorem C7_status_override_witness :
    evaluateFeature emptyRegistryFM flagOverride GoAny.null = .ok resOverride ∧
    vdOverride.StatusOverride = StatusOverrideDisabled ∧
    resOverride.Enabled = false :=
  ⟨rfl, rfl,
   (((C7_status_override emptyRegistryFM flagOverride GoAny.null).2 true (some vdOverride)
       "DefaultWhenEnabled" resOverride rfl rfl rfl).1 rfl vdOverride rfl).1 rfl⟩

/-! ## C9 : targeting id versus the targeting filter's context shape -/

/-- C9: the result's targeting id comes from `targetingIDFrom`, which is the
user id exactly for a `*TargetingContext` pointer app context and empty for
every other shape; the built-in targeting filter proceeds only for a
`TargetingContext` value and rejects every other shape with a context-type
error; consequently an evaluation that populated a nonempty targeting id
implies the targeting filter rejects that same app context. -/
theorem C9_targeting_context_mismatch (fm : FeatureManager) (flag : FeatureFlag) (appCtx : GoAny)
    (fn : String) (params : TargetingFilterParameters) :
    (∀ r, evaluateFeature fm flag appCtx = .ok r → r.TargetingID = targetingIDFrom appCtx) ∧
    (∀ tc, appCtx = .targetingCtxPtr tc → targetingIDFrom appCtx = tc.UserID) ∧
    ((∀ tc, appCtx ≠ .targetingCtxPtr tc) → targetingIDFrom appCtx = "") ∧
    (∀ tc, appCtx = .targetingCtx tc → getTargetingParams fn params = .ok params →
       TargetingFilter.Evaluate fn params appCtx = targetingEvaluateBody fn params tc) ∧
    ((∀ tc, appCtx ≠ .targetingCtx tc) → getTargetingParams fn params = .ok params →
       TargetingFilter.Evaluate fn params appCtx =
         .error "the app context is required for targeting filter and must be of type TargetingContext") ∧
    (∀ r, evaluateFeature fm flag appCtx = .ok r → r.TargetingID ≠ "" →
       getTargetingParams fn params = .ok params →
       TargetingFilter.Evaluate fn params appCtx =
         .error "the app context is required for targeting filter and must be of type TargetingContext") := by
  have hid : ∀ r, evaluateFeature fm flag appCtx = .ok r →
      r.TargetingID = targetingIDFrom appCtx := by
    intro r hok
    obtain ⟨en, vd, reason, _, _, hr⟩ := evaluateFeature_ok_inv fm flag appCtx r hok
    rw [hr]
  have hrej : (∀ tc, appCtx ≠ .targetingCtx tc) → getTargetingParams fn params = .ok params →
      TargetingFilter.Evaluate fn params appCtx =
        .error "the app context is required for targeting filter and must be of type TargetingContext" := by
    intro hne hparams
    unfold TargetingFilter.Evaluate
    rw [hparams]
    cases appCtx with
    | targetingCtx tc => exact absurd rfl (hne tc)
    | null => rfl
    | targetingCtxPtr tc => rfl
    | other tag => rfl
  refine ⟨hid, ?_, ?_, ?_, hrej, ?_⟩
  · intro tc hctx
    subst hctx
    rfl
  · intro hne
    cases appCtx with
    | targetingCtxPtr tc => exact absurd rfl (hne tc)
    | null => rfl
    | targetingCtx tc => rfl
    | other tag => rfl
  · intro tc hctx hparams
    subst hctx
    unfold TargetingFilter.Evaluate
    rw [hparams]
  · intro r hok hne hparams
    refine hrej ?_ hparams
    intro tc hctx
    subst hctx
    exact hne (hid r hok)

/-- Witness for C9: evaluating the plain enabled flag under the
`*TargetingContext` pointer for user "u" populates the targeting id, while
the built-in targeting filter rejects that same app context. -/
theorem C9_targeting_context_mismatch_witness :
    evaluateFeature emptyRegistryFM flagPlain (.targetingCtxPtr ⟨"u", []⟩) = .ok resPlainPtr ∧
    resPlainPtr.TargetingID = "u" ∧
    TargetingFilter.Evaluate "feat" paramsEmptyAudience (.targetingCtxPtr ⟨"u", []⟩) =
      .error "the app context is required for targeting filter and must be of type TargetingContext" :=
  ⟨rfl, rfl,
   (C9_targeting_context_mismatch emptyRegistryFM flagPlain (.targetingCtxPtr ⟨"u", []⟩) "feat"
      paramsEmptyAudience).2.2.2.2.2 resPlainPtr rfl (by decide) rfl⟩

/-! ## C10 : GetFeatureNames padding -/

/-- C10: a successful provider call with `n` flags yields a slice of length
`2 n` whose first `n` entries are empty strings and whose last `n` entries
are the flag ids in provider order; a provider error yields `nil`. -/
theorem C10_feature_names_padding (flags : List FeatureFlag) (e : String) :
    GetFeatureNames (.ok flags) =
      some (List.replicate flags.length "" ++ flags.map FeatureFlag.ID) ∧
    (List.replicate flags.length "" ++ flags.map FeatureFlag.ID).length = 2 * flags.length ∧
    (List.replicate flags.length "" ++ flags.map FeatureFlag.ID).take flags.length =
      List.replicate flags.length "" ∧
    (List.replicate flags.length "" ++ flags.map FeatureFlag.ID).drop flags.length =
      flags.map FeatureFlag.ID ∧
    GetFeatureNames (.error e) = none := by
  refine ⟨rfl, ?_, ?_, ?_, rfl⟩
  · simp [two_mul]
  · exact List.take_left' (List.length_replicate _ _)
  · exact List.drop_left' (List.length_replicate _ _)

/-- Witness for C10 at a one-flag provider result. -/
theorem C10_feature_names_padding_witness :
    GetFeatureNames (.ok [flagPlain]) =
      some (List.replicate (List.length [flagPlain]) "" ++ [flagPlain].map FeatureFlag.ID) :=
  (C10_feature_names_padding [flagPlain] "x").1

/-! ## C4 : group targeting with partial rollout -/

/-- A percentile check over an empty range `[0, 0)` never matches (the
bucket is nonnegative and the upper bound is strict). -/
theorem isTargetedPercentile_zero_to (u h : String) :
    isTargetedPercentile u h 0 0 = .ok false := by
  rw [isTargetedPercentile_valid u h 0 0 le_rfl le_rfl (by norm_num)]
  rw [if_neg (by norm_num)]
  rw [decide_eq_false (by
    rintro ⟨h1, h2⟩
    exact absurd h2 (not_lt.mpr (contextPercentage_nonneg _)))]

/-- A percentile check over the full range `[0, 100]` always matches (the
top bound 100 is inclusive and the bucket is nonnegative). -/
theorem isTargetedPercentile_full (u h : String) :
    isTargetedPercentile u h 0 100 = .ok true := by
  rw [isTargetedPercentile_valid u h 0 100 le_rfl (by norm_num) le_rfl]
  rw [if_pos rfl]
  rw [decide_eq_true (contextPercentage_nonneg _)]

/-- C4 counterexample: the context of user "u" in groups "g1" and "g2"
against groups `[("g1", 0%), ("g2", 100%)]`.  The first matching group's
percentile check rejects (`[0, 0)` is empty), yet the loop accepts via the
second group, so a later group does get a chance after an earlier matching
group's rejection; in addition the default-rollout fallback alone would have
rejected, and the bucket key the code hashes (`user\nfeature\ngroup`)
differs from the string the claim prescribes (`feature\ngroup\nuser`). -/
theorem C4_counterexample :
    targetingGroupsLoop "F" ⟨"u", ["g1", "g2"]⟩ [⟨"g1", 0⟩, ⟨"g2", 100⟩] = .ok true ∧
    isTargetedPercentile "u" ("F" ++ "\n" ++ "g1") 0 0 = .ok false ∧
    isTargetedPercentile "u" "F" 0 0 = .ok false ∧
    hashStringToUint32 ("u" ++ "\n" ++ "F" ++ "\n" ++ "g1") ≠
      hashStringToUint32 ("F" ++ "\n" ++ "g1" ++ "\n" ++ "u") := by
  refine ⟨?_, isTargetedPercentile_zero_to _ _, isTargetedPercentile_zero_to _ _, ?_⟩
  · have h1 : isTargetedGroup ["g1", "g2"] ["g1"] = true := rfl
    have h2 : isTargetedGroup ["g1", "g2"] ["g2"] = true := rfl
    simp [targetingGroupsLoop, h1, h2, isTargetedPercentile_zero_to, isTargetedPercentile_full]
  · decide

/-- C4 (amended): the group-targeting loop processes the audience groups in
declaration order; a group the context does not belong to is skipped; the
first group the context belongs to whose percentile check (over the key
`user\nfeature\ngroup`, range `[0, rollout)` with the top-100 inclusive
rule) accepts stops the loop with `true`, whatever groups follow; and when a
matching group's percentile check rejects, evaluation continues with the
remaining groups (it does not stop); an exhausted loop yields `false`,
deferring to the default rollout. -/
theorem C4_group_rollout (fn : String) (tc : TargetingContext) (g : TargetingGroup)
    (rest : List TargetingGroup) :
    (targetingGroupsLoop fn tc [] = .ok false) ∧
    (isTargetedGroup tc.Groups [g.Name] = false →
       targetingGroupsLoop fn tc (g :: rest) = targetingGroupsLoop fn tc rest) ∧
    (isTargetedGroup tc.Groups [g.Name] = true →
       isTargetedPercentile tc.UserID (fn ++ "\n" ++ g.Name) 0 g.RolloutPercentage = .ok true →
       targetingGroupsLoop fn tc (g :: rest) = .ok true) ∧
    (isTargetedGroup tc.Groups [g.Name] = true →
       isTargetedPercentile tc.UserID (fn ++ "\n" ++ g.Name) 0 g.RolloutPercentage = .ok false →
       targetingGroupsLoop fn tc (g :: rest) = targetingGroupsLoop fn tc rest) ∧
    (constructAudienceContextID tc.UserID (fn ++ "\n" ++ g.Name) =
       tc.UserID ++ "\n" ++ fn ++ "\n" ++ g.Name) := by
  refine ⟨rfl, ?_, ?_, ?_, ?_⟩
  · intro hmem
    simp [targetingGroupsLoop, hmem]
  · intro hmem hperc
    simp [targetingGroupsLoop, hmem, hperc]
  · intro hmem hperc
    simp [targetingGroupsLoop, hmem, hperc]
  · simp [constructAudienceContextID, String.append_assoc]

/-- Witness for C4: user "u" in group "g1" against the single group
`("g1", 100%)` is accepted by the loop. -/
theorem C4_group_rollout_witness :
    isTargetedGroup ["g1"] ["g1"] = true ∧
    isTargetedPercentile "u" ("F" ++ "\n" ++ "g1") 0 100 = .ok true ∧
    targetingGroupsLoop "F" ⟨"u", ["g1"]⟩ [⟨"g1", 100⟩] = .ok true :=
  ⟨rfl, isTargetedPercentile_full _ _,
   (C4_group_rollout "F" ⟨"u", ["g1"]⟩ ⟨"g1", 100⟩ []).2.2.1 rfl (isTargetedPercentile_full _ _)⟩

/-! ## C8 : the time-window filter -/

/-- Boolean form of the ordering used at part_002 line 68
(`!now.Before(start)`). -/
theorem not_decide_lt (a b : Int) : (!decide (a < b)) = decide (b ≤ a) := by
  by_cases h : a < b
  · simp [h, not_le.mpr h]
  · simp [h, not_lt.mp h]

/-- The format loop errors exactly when every attempted format fails. -/
theorem parseTimeWith_error_iff (goParse : GoParseFn) (s : String) (fmts : List String) :
    (∃ e, parseTimeWith goParse s fmts = .error e) ↔ ∀ fmt ∈ fmts, goParse fmt s = none := by
  induction fmts with
  | nil => simp [parseTimeWith]
  | cons fmt rest ih =>
    cases hp : goParse fmt s with
    | some t => simp [parseTimeWith, hp]
    | none => simp [parseTimeWith, hp, ih]

/-- The format loop returns the value of the first format that parses. -/
theorem parseTimeWith_first (goParse : GoParseFn) (s : String) (pre : List String) (fmt : String)
    (post : List String) (t : Int) (hpre : ∀ f2 ∈ pre, goParse f2 s = none)
    (hf : goParse fmt s = some t) :
    parseTimeWith goParse s (pre ++ fmt :: post) = .ok t := by
  induction pre with
  | nil => simp [parseTimeWith, hf]
  | cons p pre ih =>
    have hp := hpre p (List.mem_cons_self p pre)
    rw [List.cons_append]
    simp only [parseTimeWith, hp]
    exact ih (fun f2 h2 => hpre f2 (List.mem_cons_of_mem _ h2))

/-- C8: with neither bound present the filter returns `ok false` with no
error; with present bounds that parse, the verdict is `start ≤ now` and
`now < end` with an absent bound unconstrained; the filter errors only when
a present bound fails to parse; and a timestamp is parsed by trying the
fixed format sequence (which contains the RFC-1123 and RFC-3339 layouts) in
order, taking the first success and failing only when every format fails. -/
theorem C8_time_window (goParse : GoParseFn) (fn s : String)
    (params : TimeWindowFilterParameters) (now : Int) :
    (params.Start = "" → params.End = "" →
       TimeWindowFilter.Evaluate goParse fn params now = .ok false) ∧
    (∀ st et, params.Start ≠ "" → params.End ≠ "" →
       parseTime goParse params.Start = .ok st → parseTime goParse params.End = .ok et →
       TimeWindowFilter.Evaluate goParse fn params now =
         .ok (decide (st ≤ now) && decide (now < et))) ∧
    (∀ st, params.Start ≠ "" → params.End = "" → parseTime goParse params.Start = .ok st →
       TimeWindowFilter.Evaluate goParse fn params now = .ok (decide (st ≤ now))) ∧
    (∀ et, params.Start = "" → params.End ≠ "" → parseTime goParse params.End = .ok et →
       TimeWindowFilter.Evaluate goParse fn params now = .ok (decide (now < et))) ∧
    (∀ e, TimeWindowFilter.Evaluate goParse fn params now = .error e →
       (params.Start ≠ "" ∧ ∃ pe, parseTime goParse params.Start = .error pe) ∨
       (params.End ≠ "" ∧ ∃ pe, parseTime goParse params.End = .error pe)) ∧
    ("Mon, 02 Jan 2006 15:04:05 MST" ∈ timeFormats ∧
     "2006-01-02T15:04:05Z07:00" ∈ timeFormats) ∧
    ((∃ e, parseTime goParse s = .error e) ↔ ∀ fmt ∈ timeFormats, goParse fmt s = none) ∧
    (∀ pre fmt post t, timeFormats = pre ++ fmt :: post → (∀ f2 ∈ pre, goParse f2 s = none) →
       goParse fmt s = some t → parseTime goParse s = .ok t) := by
  have hnone : ∀ (q : String), q = "" → (q != "") = false := by
    intro q hq
    rw [hq]
    rfl
  have hsome : ∀ (q : String), q ≠ "" → (q != "") = true := by
    intro q hq
    exact bne_iff_ne.mpr hq
  have h1 : params.Start = "" → params.End = "" →
      TimeWindowFilter.Evaluate goParse fn params now = .ok false := by
    intro hS hE
    unfold TimeWindowFilter.Evaluate
    rw [hnone _ hS, hnone _ hE]
    rfl
  have h2 : ∀ st et, params.Start ≠ "" → params.End ≠ "" →
      parseTime goParse params.Start = .ok st → parseTime goParse params.End = .ok et →
      TimeWindowFilter.Evaluate goParse fn params now =
        .ok (decide (st ≤ now) && decide (now < et)) := by
    intro st et hS hE hps hpe
    unfold TimeWindowFilter.Evaluate
    rw [hsome _ hS, hsome _ hE]
    simp only [if_true, hps, hpe]
    rw [not_decide_lt]
    rfl
  have h3 : ∀ st, params.Start ≠ "" → params.End = "" →
      parseTime goParse params.Start = .ok st →
      TimeWindowFilter.Evaluate goParse fn params now = .ok (decide (st ≤ now)) := by
    intro st hS hE hps
    unfold TimeWindowFilter.Evaluate
    rw [hsome _ hS, hnone _ hE]
    simp only [if_true, hps]
    rw [not_decide_lt]
    simp
  have h4 : ∀ et, params.Start = "" → params.End ≠ "" →
      parseTime goParse params.End = .ok et →
      TimeWindowFilter.Evaluate goParse fn params now = .ok (decide (now < et)) := by
    intro et hS hE hpe
    unfold TimeWindowFilter.Evaluate
    rw [hnone _ hS, hsome _ hE]
    simp only [if_true, hpe]
    simp
  refine ⟨h1, h2, h3, h4, ?_, ⟨by decide, by decide⟩, parseTimeWith_error_iff goParse s timeFormats, ?_⟩
  · intro e he
    by_cases hS : params.Start = ""
    · by_cases hE : params.End = ""
      · rw [h1 hS hE] at he
        simp at he
      · cases hpe : parseTime goParse params.End with
        | error pe => exact Or.inr ⟨hE, pe, rfl⟩
        | ok et =>
          rw [h4 et hS hE hpe] at he
          simp at he
    · cases hps : parseTime goParse params.Start with
      | error pe => exact Or.inl ⟨hS, pe, rfl⟩
      | ok st =>
        by_cases hE : params.End = ""
        · rw [h3 st hS hE hps] at he
          simp at he
        · cases hpe : parseTime goParse params.End with
          | error pe => exact Or.inr ⟨hE, pe, rfl⟩
          | ok et =>
            rw [h2 st et hS hE hps hpe] at he
            simp at he
  · intro pre fmt post t hsplit hpre hf
    unfold parseTime
    rw [hsplit]
    exact parseTimeWith_first goParse s pre fmt post t hpre hf

/-- Witness for C8: both bounds present and parsed by the stand-in parser,
`now = 5` inside the window `[0, 10)`. -/
theorem C8_time_window_witness :
    parseTime gpStartStop "start" = .ok 0 ∧ parseTime gpStartStop "stop" = .ok 10 ∧
    TimeWindowFilter.Evaluate gpStartStop "F" ⟨"start", "stop"⟩ 5 =
      .ok (decide ((0 : Int) ≤ 5) && decide ((5 : Int) < 10)) :=
  ⟨rfl, rfl,
   (C8_time_window gpStartStop "F" "x" ⟨"start", "stop"⟩ 5).2.1 0 10 (by decide) (by decide)
     rfl rfl⟩

end FMGo
